import Mathlib

/-!
Verification of the scheduled dispatch engine of PlusePoster
(`src/pluseposter/platforms/facebook.py` and `platforms/base.py`), via a
shallow embedding: Python floats become rationals, `datetime` values become
integer UTC timestamps, coroutine semantics (unawaited calls, reuse of an
awaited coroutine, a non-reentrant `asyncio.Lock`) are made explicit, and
fallible calls return `Except`.
-/

deriving instance DecidableEq for Except

namespace PlusePoster

/-- State of a `RateLimiter` token bucket (facebook.py lines 14-21):
`rate` tokens refilled per second, at most `capacity` stored, `tokens`
currently stored, `last` the monotonic timestamp of the last refill. -/
structure RLState where
  rate : ℚ
  capacity : ℚ
  tokens : ℚ
  last : ℚ
deriving DecidableEq, Repr

/-- The lazy refill at facebook.py lines 26-29: add `elapsed * rate` tokens,
capped at `capacity`, and move `last` forward. -/
def refill (st : RLState) (now : ℚ) : RLState :=
  { st with tokens := min st.capacity (st.tokens + (now - st.last) * st.rate), last := now }

/-- Effect of one `RateLimiter.acquire(req)` call entered at time `now` on the
stored bucket state (facebook.py lines 23-40). The bucket is refilled first;
then, in source order: if `req > capacity` a ValueError is raised (after the
refill was already stored); if the refilled tokens are insufficient the call
sleeps and then re-enters `acquire` recursively while still holding the
non-reentrant `_lock`, so no further mutation of the bucket ever happens;
otherwise the tokens are debited. -/
def stepAcquire (st : RLState) (now req : ℚ) : RLState :=
  let st' := refill st now
  if st.capacity < req then st'
  else if st'.tokens < req then st'
  else { st' with tokens := st'.tokens - req }

/-- Observable outcome of a completed `acquire` call. -/
inductive AcqOutcome where
  | ok : ℚ → RLState → AcqOutcome
  | capacityError : RLState → AcqOutcome
deriving DecidableEq, Repr

/-- Fuel-indexed run of `RateLimiter.acquire` (facebook.py lines 23-40) for a
single caller. `held` records whether the same task already holds `_lock` in an
enclosing frame: `asyncio.Lock` is not reentrant, so the inner
`async with self._lock` at line 25 then never resumes and no outcome is ever
observed (`none`), whatever the remaining fuel. The deficit branch (lines
34-37) sleeps `(req - tokens) / rate` seconds and then re-enters `acquire`
from inside the `async with` block, i.e. with the lock still held. -/
def acquireRun : ℕ → Bool → RLState → ℚ → ℚ → Option AcqOutcome
  | 0, _, _, _, _ => none
  | _ + 1, true, _, _, _ => none
  | fuel + 1, false, st, now, req =>
    let st' := refill st now
    if st.capacity < req then some (.capacityError st')
    else if st'.tokens < req then
      acquireRun fuel true st' (now + (req - st'.tokens) / st.rate) req
    else some (.ok 0 { st' with tokens := st'.tokens - req })

/-- The spec's token-bucket invariant: `0 <= tokens <= capacity`. -/
def RLState.inv (st : RLState) : Prop := 0 ≤ st.tokens ∧ st.tokens ≤ st.capacity

/-- A sequence of `acquire` calls, each given by its entry time and its
requested token count, threaded through the bucket state. -/
def runAcquires (st : RLState) : List (ℚ × ℚ) → RLState
  | [] => st
  | e :: es => runAcquires (stepAcquire st e.1 e.2) es

/-- The entry times of a call sequence are chronological for a monotonic
clock starting no earlier than `t`. -/
def chrono (t : ℚ) : List (ℚ × ℚ) → Bool
  | [] => true
  | e :: es => decide (t ≤ e.1) && chrono e.1 es

/-- A `ConnectionPool` (facebook.py lines 42-62): a bounded deque of idle
session handles (handles are embedded as naturals). -/
structure ConnectionPool where
  size : ℕ
  pool : List ℕ
deriving DecidableEq, Repr

/-- `ConnectionPool.get_session` (facebook.py lines 49-54): pop the leftmost
idle handle if one exists, else create a fresh session (`fresh`). -/
def get_session (p : ConnectionPool) (fresh : ℕ) : ℕ × ConnectionPool :=
  match p.pool with
  | s :: rest => (s, { p with pool := rest })
  | [] => (fresh, p)

/-- `ConnectionPool.release_session` (facebook.py lines 56-62): append the
handle if the idle count is below `size`, else close it (second component
`true` means the handle was closed). -/
def release_session (p : ConnectionPool) (s : ℕ) : ConnectionPool × Bool :=
  if p.pool.length < p.size then ({ p with pool := p.pool ++ [s] }, false)
  else (p, true)

/-- One pool operation: an acquisition (with the identity of the session that
would be freshly created on an empty pool) or a release of a handle. -/
inductive PoolOp where
  | acquire : ℕ → PoolOp
  | release : ℕ → PoolOp
deriving DecidableEq, Repr

/-- Run a sequence of pool operations, tracking the pool state. -/
def runPoolOps (p : ConnectionPool) : List PoolOp → ConnectionPool
  | [] => p
  | .acquire f :: ops => runPoolOps (get_session p f).2 ops
  | .release s :: ops => runPoolOps (release_session p s).1 ops

/-- A backend error as observed by the retry loops: either a plain exception
raised by the Graph API call (with its message), or the spec's
`OperationFailed{attempts, lastError}` wrapper. The code never constructs the
wrapper; it exists so that the spec's description of the propagated error can
be stated and compared with what the code actually raises. -/
inductive FBError where
  | exc : String → FBError
  | operationFailed : ℕ → FBError → FBError
deriving DecidableEq, Repr

/-- The successful result dictionary of one attempt of `_post_impl`
(facebook.py lines 210-214), embedded as the post id it carries. -/
structure PostResp where
  post_id : ℕ
deriving DecidableEq, Repr

/-- The retry loop of `FacebookPlatform._post_impl` (facebook.py lines
185-227): `op a` is the outcome of the try-block on attempt `a` (0-based).
`attempt` is the current loop index and `left` the number of range elements
still to iterate (`attempt + left = max_retries` on entry). On success the
result is returned at once; on failure of the last attempt (`left = 1`,
i.e. `attempt == max_retries - 1`) the original error is re-raised; otherwise
the loop sleeps `base_delay * 2 ** attempt` seconds (no observable effect on
the result) and retries. If the range is exhausted (`left = 0` initially,
impossible for `max_retries = 3`) Python would fall off the loop and return
None, embedded as `none`. The second component counts invocations of `op`. -/
def retryGo (op : ℕ → Except FBError PostResp) :
    ℕ → ℕ → Option (Except FBError PostResp × ℕ)
  | _, 0 => none
  | attempt, left + 1 =>
    match op attempt with
    | .ok r => some (.ok r, attempt + 1)
    | .error e =>
      if left = 0 then some (.error e, attempt + 1)
      else retryGo op (attempt + 1) left

/-- `_post_impl`'s whole retry wrapper: `for attempt in range(3)` starting at
attempt 0. -/
def post_impl_retry (op : ℕ → Except FBError PostResp) :
    Option (Except FBError PostResp × ℕ) :=
  retryGo op 0 3

/-- A scheduled-heap entry, the Python tuple `(scheduled_time, post_data)`
pushed at facebook.py line 266: the due time as an integer UTC timestamp and
the `post_data` dict embedded as a natural identifying its contents (equal
naturals model dicts with equal contents). -/
abbrev SEntry := ℤ × ℕ

/-- The Python comparison `(t1, d1) < (t2, d2)` used inside `heapq`:
lexicographic tuple comparison. When the times differ it returns their order;
when they are equal it moves to the second components, where dict equality is
tested first (tuples compare elements with `==` before `<`) and, for unequal
dicts, `dict < dict` raises TypeError, embedded as `none`. -/
def entryLt (a b : SEntry) : Option Bool :=
  if a.1 = b.1 then (if a.2 = b.2 then some false else none)
  else some (decide (a.1 < b.1))

/-- CPython `heapq._siftdown(heap, startpos, pos)` with `newitem` the element
initially at `pos`: walk up from `pos`, moving each parent down while
`newitem < parent`, and finally store `newitem`. The second component is true
when a comparison raised TypeError, in which case the heap is returned as the
loop left it (parents moved so far, `newitem` not yet written). `fuel` only
bounds the structural recursion: `pos` strictly decreases each iteration, so
with `fuel > pos` the exhaustion case (which mirrors the loop exit) is never
reached. -/
def siftdownGo (startpos : ℕ) (newitem : SEntry) :
    ℕ → Array SEntry → ℕ → Array SEntry × Bool
  | 0, heap, pos => (heap.setD pos newitem, false)
  | fuel + 1, heap, pos =>
    if startpos < pos then
      let parentpos := (pos - 1) / 2
      let parent := heap.getD parentpos default
      match entryLt newitem parent with
      | none => (heap, true)
      | some true => siftdownGo startpos newitem fuel (heap.setD pos parent) parentpos
      | some false => (heap.setD pos newitem, false)
    else (heap.setD pos newitem, false)

/-- `heapq._siftdown` entered at position `pos`. -/
def siftdownLoop (heap : Array SEntry) (startpos pos : ℕ) (newitem : SEntry) :
    Array SEntry × Bool :=
  siftdownGo startpos newitem (pos + 1) heap pos

/-- CPython `heapq._siftup(heap, pos)` with `newitem` the element initially at
`pos`: bubble the smaller child up until a leaf is reached, then place
`newitem` and sift it down. Comparisons of the two children can raise
TypeError (second component true, heap as the loop left it). `pos` strictly
increases each iteration and the loop stops once `2 * pos + 1 >= endpos`, so
with `fuel >= endpos` the exhaustion case (which mirrors the loop exit) is
never reached. -/
def siftupGo (endpos startpos : ℕ) (newitem : SEntry) :
    ℕ → Array SEntry → ℕ → Array SEntry × Bool
  | 0, heap, pos => siftdownLoop (heap.setD pos newitem) startpos pos newitem
  | fuel + 1, heap, pos =>
    let childpos := 2 * pos + 1
    if childpos < endpos then
      let rightpos := childpos + 1
      if rightpos < endpos then
        match entryLt (heap.getD childpos default) (heap.getD rightpos default) with
        | none => (heap, true)
        | some true =>
          siftupGo endpos startpos newitem fuel
            (heap.setD pos (heap.getD childpos default)) childpos
        | some false =>
          siftupGo endpos startpos newitem fuel
            (heap.setD pos (heap.getD rightpos default)) rightpos
      else
        siftupGo endpos startpos newitem fuel
          (heap.setD pos (heap.getD childpos default)) childpos
    else siftdownLoop (heap.setD pos newitem) startpos pos newitem

/-- `heapq._siftup` entered at position `pos`. -/
def siftupLoop (endpos startpos : ℕ) (newitem : SEntry) (heap : Array SEntry)
    (pos : ℕ) : Array SEntry × Bool :=
  siftupGo endpos startpos newitem (endpos + 1) heap pos

/-- `heapq.heappush(heap, item)` (used at facebook.py line 266): append the
item and sift it toward the root. The flag is true when the sift raised
TypeError. -/
def heappush (heap : Array SEntry) (item : SEntry) : Array SEntry × Bool :=
  siftdownLoop (heap.push item) 0 heap.size item

/-- `heapq.heappop(heap)` (used at facebook.py line 147): `none` on an empty
heap (IndexError in Python; the caller always checks first). Otherwise the
popped root, the remaining heap, and whether a comparison raised TypeError. -/
def heappop (heap : Array SEntry) : Option (SEntry × Array SEntry × Bool) :=
  if heap.isEmpty then none
  else
    let lastelt := heap.getD (heap.size - 1) default
    let rest := heap.pop
    if rest.isEmpty then some (lastelt, rest, false)
    else
      let returnitem := rest.getD 0 default
      let p := siftupLoop rest.size 0 lastelt (rest.setD 0 lastelt) 0
      some (returnitem, p.1, p.2)

/-- The inner dispatch loop of one iteration of
`FacebookPlatform._process_scheduled_posts` (facebook.py lines 146-148):
`while heap and heap[0][0] <= now: pop and create_task(_post_impl(**data))`.
Returns the `post_data` values in dispatch order, the remaining heap, and
whether the loop died with TypeError. `fuel` bounds the iterations; each
iteration removes one element, so `heap.size` suffices. -/
def processDue (now : ℤ) : Array SEntry → ℕ → List ℕ × Array SEntry × Bool
  | heap, 0 => ([], heap, false)
  | heap, fuel + 1 =>
    if heap.size ≠ 0 ∧ (heap.getD 0 default).1 ≤ now then
      match heappop heap with
      | none => ([], heap, true)
      | some (e, h', raised) =>
        if raised then ([e.2], h', true)
        else
          let rest := processDue now h' fuel
          (e.2 :: rest.1, rest.2.1, rest.2.2)
    else ([], heap, false)

/-- One pass of the runner over a heap whose due entries are all to be
dispatched now: enough fuel for every element. -/
def runnerDispatch (now : ℤ) (heap : Array SEntry) : List ℕ × Array SEntry × Bool :=
  processDue now heap heap.size

/-- A Python exception as raised by `FacebookPlatform.post` and the methods it
calls. -/
inductive PyErr where
  | nameError : String → PyErr
  | valueError : String → PyErr
  | typeError : PyErr
  | runtimeError : String → PyErr
  | fb : FBError → PyErr
deriving DecidableEq, Repr

/-- A Python object as far as the validation step needs to distinguish:
calling an `async def` without awaiting it yields a coroutine object. -/
inductive PyObj where
  | coroutine : PyObj
deriving DecidableEq, Repr

/-- Python truthiness of such an object: a coroutine object defines neither
`__bool__` nor `__len__`, so `bool(obj)` is True. -/
def truthy : PyObj → Bool
  | .coroutine => true

/-- The expression `self._validate_content(content_type, content)` as written
at facebook.py line 248 (and twitter.py line 100, instagram.py line 95):
`_validate_content` is `async def`, and the call is not awaited, so it returns
the coroutine object without running the body. -/
def validate_content_call (content_type : String) (content : ℕ) : PyObj :=
  .coroutine

/-- The body of `Platform._validate_content` (base.py lines 40-52), i.e. what
awaiting the coroutine would return: unconditionally True. -/
def validate_content_body (content_type : String) (content : ℕ) : Bool :=
  true

/-- The shared guard `if not self._validate_content(...): raise
ValueError("Invalid content")` at the top of every platform's `post`. -/
def validation_gate (content_type : String) (content : ℕ) : Except PyErr Unit :=
  if ¬ truthy (validate_content_call content_type content) then
    .error (.valueError "Invalid content")
  else .ok ()

/-- The names bound in facebook.py's module scope by its import statements
(lines 1-11) and top-level definitions; `timezone` is not among them, so
evaluating the name `timezone` at line 260 raises NameError. -/
def facebookModuleNames : List String :=
  ["Dict", "Any", "Optional", "List", "Tuple", "Deque", "datetime",
   "timedelta", "aiohttp", "asyncio", "logging", "time", "deque", "lru_cache",
   "heappush", "heappop", "GraphAPI", "Platform", "RateLimiter",
   "ConnectionPool", "FacebookPlatform"]

/-- Resolution of a bare name against facebook.py's module scope. -/
def lookupName (n : String) : Except PyErr Unit :=
  if facebookModuleNames.contains n then .ok () else .error (.nameError n)

/-- A `datetime` argument: its instant as an integer UTC timestamp, and
whether it is timezone-aware (`tzinfo is not None`). -/
structure SchedTime where
  utc : ℤ
  aware : Bool
deriving DecidableEq, Repr

/-- The arguments of `FacebookPlatform.post` (facebook.py lines 229-235). -/
structure PostArgs where
  content_type : String
  content : ℕ
  caption : Option String
  scheduled_time : Option SchedTime
deriving DecidableEq, Repr

/-- What `post` returns on success: either the `_post_impl` response dict, or
the scheduling-confirmation dict of lines 268-273 (carrying the stored naive
UTC time). -/
inductive PostOutcome where
  | posted : PostResp → PostOutcome
  | scheduledAck : ℤ → PostOutcome
deriving DecidableEq, Repr

/-- `FacebookPlatform.post` (facebook.py lines 229-275) entered at UTC time
`now` with the scheduled-post heap `heap`. `postData` stands for the
`post_data` dict built at lines 251-255, and `implResult` is the outcome
`await self._post_impl(**post_data)` would produce (line 275). The steps, in
source order: the validation guard (line 248, never fires — the coroutine is
truthy); for a set `scheduled_time`, the timezone normalization (lines
259-260, which resolves the unbound name `timezone` when the value is aware),
the strictly-in-the-past check (lines 262-263), the `heappush` under the lock
(lines 265-266, which can raise TypeError from dict comparison), and the
acknowledgement dict; otherwise the immediate `_post_impl` call. -/
def postFB (now : ℤ) (heap : Array SEntry) (args : PostArgs) (postData : ℕ)
    (implResult : Except FBError PostResp) :
    Except PyErr PostOutcome × Array SEntry :=
  match validation_gate args.content_type args.content with
  | .error e => (.error e, heap)
  | .ok _ =>
    match args.scheduled_time with
    | some s =>
      match (if s.aware then (lookupName "timezone").map fun _ => SchedTime.mk s.utc false
             else .ok s) with
      | .error e => (.error e, heap)
      | .ok s' =>
        if s'.utc < now then
          (.error (.valueError "Scheduled time must be in the future"), heap)
        else
          let p := heappush heap (s'.utc, postData)
          if p.2 then (.error .typeError, p.1)
          else (.ok (.scheduledAck s'.utc), p.1)
    | none =>
      match implResult with
      | .ok r => (.ok (.posted r), heap)
      | .error e => (.error (.fb e), heap)

/-- State of `functools.lru_cache(maxsize=128)` applied to the `async def`
method `_upload_media` (facebook.py lines 92-93): the cache maps each
`(file_path, media_type)` key to the coroutine object created by the first
call for that key, with a flag recording whether that coroutine has already
been awaited. `uploads` counts how many times the underlying upload body
actually ran. -/
structure UploadCacheState where
  cache : List ((String × String) × Bool)
  uploads : ℕ
deriving DecidableEq, Repr

/-- Mark the coroutine cached under `k` as having been awaited. -/
def markAwaited (c : List ((String × String) × Bool)) (k : String × String) :
    List ((String × String) × Bool) :=
  c.map fun e => if e.1 = k then (e.1, true) else e

/-- One `await self._upload_media(file_path, media_type)` as executed at
facebook.py line 199. The `lru_cache` wrapper intercepts the call: on a hit it
returns the stored coroutine object without running the body, and awaiting a
coroutine that was already awaited raises
RuntimeError("cannot reuse already awaited coroutine"); on a miss it creates
and stores a fresh coroutine, and awaiting it runs the upload body once,
which (when the backend accepts) returns the media id `mediaId`. -/
def awaitUploadMedia (st : UploadCacheState) (key : String × String)
    (mediaId : ℕ) : Except PyErr ℕ × UploadCacheState :=
  match st.cache.lookup key with
  | some true => (.error (.runtimeError "cannot reuse already awaited coroutine"), st)
  | some false => (.ok mediaId, ⟨markAwaited st.cache key, st.uploads + 1⟩)
  | none => (.ok mediaId, ⟨(key, true) :: st.cache, st.uploads + 1⟩)

/-- `asyncio.gather(*tasks, return_exceptions=True)`: each task's outcome (its
value or the exception it raised) is collected in task order; no outcome
aborts the others. -/
def gather_return_exceptions (results : List (Except PyErr PostOutcome)) :
    List (Except PyErr PostOutcome) :=
  results

/-- `FacebookPlatform.post_batch` (facebook.py lines 161-172): one `post` task
per input dict, gathered with `return_exceptions=True`. `runPost` gives the
outcome each request's `post` coroutine eventually produces. -/
def post_batch (posts : List PostArgs)
    (runPost : PostArgs → Except PyErr PostOutcome) :
    List (Except PyErr PostOutcome) :=
  gather_return_exceptions (posts.map runPost)

lemma acquireRun_held (fuel : ℕ) (st : RLState) (now req : ℚ) :
    acquireRun fuel true st now req = none := by
  cases fuel <;> rfl

lemma stepAcquire_rate (st : RLState) (now req : ℚ) :
    (stepAcquire st now req).rate = st.rate := by
  simp only [stepAcquire, refill]
  split_ifs <;> rfl

lemma stepAcquire_capacity (st : RLState) (now req : ℚ) :
    (stepAcquire st now req).capacity = st.capacity := by
  simp only [stepAcquire, refill]
  split_ifs <;> rfl

lemma stepAcquire_last (st : RLState) (now req : ℚ) :
    (stepAcquire st now req).last = now := by
  simp only [stepAcquire, refill]
  split_ifs <;> rfl

lemma refill_inv (st : RLState) (now : ℚ) (hrate : 0 ≤ st.rate) (hinv : st.inv)
    (hnow : st.last ≤ now) : (refill st now).inv := by
  obtain ⟨h0, hc⟩ := hinv
  constructor
  · have hmul : 0 ≤ (now - st.last) * st.rate :=
      mul_nonneg (by linarith) hrate
    have hcap : (0:ℚ) ≤ st.capacity := le_trans h0 hc
    exact le_min hcap (by linarith)
  · exact min_le_left _ _

lemma stepAcquire_inv (st : RLState) (now req : ℚ) (hrate : 0 ≤ st.rate)
    (hinv : st.inv) (hnow : st.last ≤ now) (hreq : 0 ≤ req) :
    (stepAcquire st now req).inv := by
  have href := refill_inv st now hrate hinv hnow
  obtain ⟨h0, hc⟩ := href
  simp only [stepAcquire]
  split_ifs with h1 h2
  · exact ⟨h0, hc⟩
  · exact ⟨h0, hc⟩
  · simp only [not_lt] at h2
    constructor
    · show (0:ℚ) ≤ (refill st now).tokens - req
      linarith
    · show (refill st now).tokens - req ≤ (refill st now).capacity
      linarith

lemma chrono_take : ∀ (l : List (ℚ × ℚ)) (t : ℚ) (n : ℕ),
    chrono t l = true → chrono t (l.take n) = true
  | [], _, n, _ => by simp [List.take_nil, chrono]
  | _ :: _, _, 0, _ => by simp [chrono]
  | e :: es, t, n + 1, h => by
    simp only [List.take_succ_cons, chrono, Bool.and_eq_true] at h ⊢
    exact ⟨h.1, chrono_take es e.1 n h.2⟩

lemma runAcquires_inv : ∀ (evts : List (ℚ × ℚ)) (st : RLState), 0 ≤ st.rate →
    st.inv → chrono st.last evts = true →
    (∀ e ∈ evts, 0 ≤ e.2 ∧ e.2 ≤ st.capacity) → (runAcquires st evts).inv
  | [], _, _, hinv, _, _ => hinv
  | e :: es, st, hrate, hinv, hch, hreq => by
    simp only [chrono, Bool.and_eq_true, decide_eq_true_eq] at hch
    have hre := hreq e (List.mem_cons_self e es)
    have h1 := stepAcquire_inv st e.1 e.2 hrate hinv hch.1 hre.1
    have h2 := runAcquires_inv es (stepAcquire st e.1 e.2)
      (by rw [stepAcquire_rate]; exact hrate) h1
      (by rw [stepAcquire_last]; exact hch.2)
      (fun x hx => by rw [stepAcquire_capacity]; exact hreq x (List.mem_cons_of_mem e hx))
    simpa [runAcquires] using h2

lemma runPoolOps_inv : ∀ (ops : List PoolOp) (p : ConnectionPool),
    p.pool.length ≤ p.size →
    (runPoolOps p ops).size = p.size ∧ (runPoolOps p ops).pool.length ≤ p.size
  | [], _, h => ⟨rfl, h⟩
  | .acquire f :: ops, p, h => by
    have hstep : (get_session p f).2.size = p.size ∧
        (get_session p f).2.pool.length ≤ p.size := by
      unfold get_session
      cases hp : p.pool with
      | nil => simp [hp]
      | cons s rest =>
        constructor
        · rfl
        · have : rest.length ≤ (s :: rest).length := by simp
          calc rest.length ≤ (s :: rest).length := this
            _ = p.pool.length := by rw [hp]
            _ ≤ p.size := h
    have hrec := runPoolOps_inv ops (get_session p f).2
      (by rw [hstep.1]; exact hstep.2)
    refine ⟨?_, ?_⟩
    · show (runPoolOps (get_session p f).2 ops).size = p.size
      rw [hrec.1, hstep.1]
    · show (runPoolOps (get_session p f).2 ops).pool.length ≤ p.size
      calc (runPoolOps (get_session p f).2 ops).pool.length
          ≤ (get_session p f).2.size := hrec.2
        _ = p.size := hstep.1
  | .release s :: ops, p, h => by
    have hstep : (release_session p s).1.size = p.size ∧
        (release_session p s).1.pool.length ≤ p.size := by
      unfold release_session
      split
      · rename_i hlt
        exact ⟨rfl, by simpa using hlt⟩
      · exact ⟨rfl, h⟩
    have hrec := runPoolOps_inv ops (release_session p s).1
      (by rw [hstep.1]; exact hstep.2)
    refine ⟨?_, ?_⟩
    · show (runPoolOps (release_session p s).1 ops).size = p.size
      rw [hrec.1, hstep.1]
    · show (runPoolOps (release_session p s).1 ops).pool.length ≤ p.size
      calc (runPoolOps (release_session p s).1 ops).pool.length
          ≤ (release_session p s).1.size := hrec.2
        _ = p.size := hstep.1

/-- Claim C1. The claim says a second `_upload_media` call with an identical
(file, media-kind) key returns the previously cached media identifier. On the
code, `lru_cache` wraps an `async def`, so the second call receives the cached
coroutine object, and awaiting it raises RuntimeError instead of returning the
cached id. Only the "exactly one underlying upload" half holds: the body runs
once. Evaluation at the failing input: first call succeeds with one upload;
second call with the same key raises and triggers no further upload. -/
theorem uploadMediaCache_second_call_raises :
    (awaitUploadMedia ⟨[], 0⟩ ("img.jpg", "image") 42).1 = .ok 42 ∧
    (awaitUploadMedia ⟨[], 0⟩ ("img.jpg", "image") 42).2.uploads = 1 ∧
    (awaitUploadMedia (awaitUploadMedia ⟨[], 0⟩ ("img.jpg", "image") 42).2
        ("img.jpg", "image") 42).1 =
      .error (.runtimeError "cannot reuse already awaited coroutine") ∧
    (awaitUploadMedia (awaitUploadMedia ⟨[], 0⟩ ("img.jpg", "image") 42).2
        ("img.jpg", "image") 42).2.uploads = 1 := by
  decide

/-- Claim C4. Ascending dispatch holds for distinct due times: entries pushed
with due times 105, 101, 103 (data 1, 2, 3) are dispatched as 2, 3, 1, i.e.
in due-time order 101, 103, 105, leaving an empty heap and raising nothing.
But the stable-tie half of the claim fails on the code: pushing a second
entry with an equal due time and a different `post_data` dict makes `heappush`
compare the two dicts with `<`, which raises TypeError — enqueueing does not
succeed, so equal-dueTime entries are never dispatched in insertion order. -/
theorem scheduler_dispatch_order_and_equal_due_typeerror :
    (heappush #[] (105, 1)).2 = false ∧
    (heappush (heappush #[] (105, 1)).1 (101, 2)).2 = false ∧
    (heappush (heappush (heappush #[] (105, 1)).1 (101, 2)).1 (103, 3)).2 = false ∧
    runnerDispatch 200
      (heappush (heappush (heappush #[] (105, 1)).1 (101, 2)).1 (103, 3)).1 =
      ([2, 3, 1], #[], false) ∧
    (heappush (heappush #[] (105, 1)).1 (105, 2)).2 = true := by
  decide

/-- Claim C5. The claim says `acquire` always eventually returns when at most
`capacity` tokens are requested. On the code it does not: with the limiter the
platform constructs (rate 5, capacity 10) and an empty bucket, `acquire(1)`
enters the deficit branch, sleeps, and then re-enters `acquire` while the
enclosing frame still holds the non-reentrant `_lock`; the inner lock
acquisition never resumes, so no amount of fuel produces an outcome. -/
theorem rateLimiter_acquire_deadlocks_on_deficit :
    ∀ fuel : ℕ, acquireRun fuel false ⟨5, 10, 0, 0⟩ 0 1 = none := by
  intro fuel
  cases fuel with
  | zero => rfl
  | succ n =>
    have hre : refill ⟨5, 10, 0, 0⟩ 0 = ⟨5, 10, 0, 0⟩ := by
      simp [refill]
    simp only [acquireRun, hre]
    norm_num
    exact acquireRun_held n _ _ _

/-- Claim C2, counterexample. A concrete request whose `scheduled_time` lies
strictly in the past (50, at current time 100) does not behave like the same
request with no `scheduled_time`: the former raises, the latter returns the
platform response. -/
theorem post_past_dueTime_counterexample :
    postFB 100 #[] ⟨"text", 0, some "hi", some ⟨50, false⟩⟩ 0 (.ok ⟨7⟩) ≠
      postFB 100 #[] ⟨"text", 0, some "hi", none⟩ 0 (.ok ⟨7⟩) := by
  decide

/-- Claim C2, amended: a post request whose naive `scheduled_time` lies
strictly in the past raises ValueError("Scheduled time must be in the
future") — it is neither executed immediately (the result does not depend on
`implResult`) nor enqueued (the heap is returned unchanged). Only an unset
`scheduled_time` executes immediately. -/
theorem post_past_dueTime_raises_invalidSchedule (now : ℤ) (heap : Array SEntry)
    (ct : String) (c : ℕ) (cap : Option String) (pd : ℕ)
    (ir : Except FBError PostResp) (t : ℤ) (h : t < now) :
    postFB now heap ⟨ct, c, cap, some ⟨t, false⟩⟩ pd ir =
      (.error (.valueError "Scheduled time must be in the future"), heap) := by
  simp [postFB, validation_gate, validate_content_call, truthy, h]

/-- Witness for the amended C2 theorem at a concrete input. -/
theorem post_past_dueTime_raises_invalidSchedule_witness :
    (50 : ℤ) < 100 ∧
    postFB 100 #[] ⟨"text", 0, some "hi", some ⟨50, false⟩⟩ 0 (.ok ⟨7⟩) =
      (.error (.valueError "Scheduled time must be in the future"), #[]) :=
  ⟨by decide,
   post_past_dueTime_raises_invalidSchedule 100 #[] "text" 0 (some "hi") 0
     (.ok ⟨7⟩) 50 (by decide)⟩

/-- Claim C3, counterexample. An operation failing on every attempt is
invoked 3 times, but the propagated failure is the raw last error itself, not
an `OperationFailed` wrapper carrying `attempts == maxAttempts`: `_post_impl`
re-raises the caught exception unchanged on the final attempt. -/
theorem retry_error_not_wrapped_counterexample :
    post_impl_retry (fun _ => .error (.exc "boom")) =
      some (.error (.exc "boom"), 3) ∧
    (FBError.exc "boom") ≠ .operationFailed 3 (.exc "boom") ∧
    post_impl_retry (fun _ => .error (.exc "boom")) ≠
      some (.error (.operationFailed 3 (.exc "boom")), 3) := by
  decide

/-- Claim C3, amended: an operation failing on the first two attempts and
succeeding on the third returns the success value after exactly 3
invocations; an operation failing on every attempt is invoked exactly 3 times
and the last error is re-raised unchanged (the attempt count appears only in
a log message, not on the propagated error); success on any attempt causes no
further attempts (success on the first attempt means exactly 1 invocation). -/
theorem retry_counts_and_propagation (op : ℕ → Except FBError PostResp)
    (e0 e1 e2 : FBError) (r : PostResp) :
    (op 0 = .error e0 → op 1 = .error e1 → op 2 = .ok r →
      post_impl_retry op = some (.ok r, 3)) ∧
    (op 0 = .error e0 → op 1 = .error e1 → op 2 = .error e2 →
      post_impl_retry op = some (.error e2, 3)) ∧
    (op 0 = .ok r → post_impl_retry op = some (.ok r, 1)) := by
  refine ⟨fun h0 h1 h2 => ?_, fun h0 h1 h2 => ?_, fun h0 => ?_⟩
  · simp [post_impl_retry, retryGo, h0, h1, h2]
  · simp [post_impl_retry, retryGo, h0, h1, h2]
  · simp [post_impl_retry, retryGo, h0]

/-- Witness for the amended C3 theorem at concrete operations. -/
theorem retry_counts_and_propagation_witness :
    post_impl_retry (fun n => if n < 2 then .error (.exc "f") else .ok ⟨1⟩) =
      some (.ok ⟨1⟩, 3) ∧
    post_impl_retry (fun _ => .error (.exc "g")) = some (.error (.exc "g"), 3) ∧
    post_impl_retry (fun _ => .ok ⟨2⟩) = some (.ok ⟨2⟩, 1) :=
  ⟨(retry_counts_and_propagation _ (.exc "f") (.exc "f") (.exc "f") ⟨1⟩).1
      (by decide) (by decide) (by decide),
   (retry_counts_and_propagation _ (.exc "g") (.exc "g") (.exc "g") ⟨1⟩).2.1
      (by decide) (by decide) (by decide),
   (retry_counts_and_propagation _ (.exc "f") (.exc "f") (.exc "f") ⟨2⟩).2.2
      (by decide)⟩

/-- Claim C6. Token-bucket invariant: for any chronological sequence of
`acquire` calls on a bucket with nonnegative rate, each requesting a
nonnegative number of tokens no greater than the capacity, the stored token
count stays within `0 <= tokens <= capacity` after every prefix of the
sequence; the intermediate post-refill state of any call also satisfies the
invariant (refill is capped at capacity and a debit happens only when at
least the requested tokens are available). -/
theorem rateLimiter_token_bucket_invariant (st : RLState) (evts : List (ℚ × ℚ))
    (hrate : 0 ≤ st.rate) (hinv : st.inv) (hchrono : chrono st.last evts = true)
    (hreq : ∀ e ∈ evts, 0 ≤ e.2 ∧ e.2 ≤ st.capacity) :
    (∀ n : ℕ, (runAcquires st (evts.take n)).inv) ∧
    (∀ s : RLState, ∀ t : ℚ, 0 ≤ s.rate → s.inv → s.last ≤ t → (refill s t).inv) := by
  constructor
  · intro n
    exact runAcquires_inv (evts.take n) st hrate hinv
      (chrono_take evts st.last n hchrono)
      (fun e he => hreq e (List.take_subset n evts he))
  · intro s t hr hi hl
    exact refill_inv s t hr hi hl

/-- Witness for the C6 theorem at a concrete bucket and call sequence. -/
theorem rateLimiter_token_bucket_invariant_witness :
    (0 : ℚ) ≤ (RLState.mk 5 10 10 0).rate ∧
    (RLState.mk 5 10 10 0).inv ∧
    chrono (RLState.mk 5 10 10 0).last [(1, 2), (2, 4)] = true ∧
    (runAcquires (RLState.mk 5 10 10 0) ([((1 : ℚ), (2 : ℚ)), (2, 4)].take 2)).inv :=
  ⟨by norm_num, ⟨by norm_num, by norm_num⟩, by decide,
   (rateLimiter_token_bucket_invariant ⟨5, 10, 10, 0⟩ [(1, 2), (2, 4)]
      (by norm_num) ⟨by norm_num, by norm_num⟩ (by decide) (by decide)).1 2⟩

/-- Claim C7. `post_batch` returns exactly one outcome per request, in input
order: the outcome list has the input's length, the outcome at every index is
exactly the outcome of the request at that index (so no request's failure
aborts, skips, or alters another's outcome), and for three requests of which
the second fails the result is success, error, success. -/
theorem post_batch_partial_failure (posts : List PostArgs)
    (runPost : PostArgs → Except PyErr PostOutcome)
    (p1 p2 p3 : PostArgs) (a c : PostOutcome) (e : PyErr) :
    (post_batch posts runPost).length = posts.length ∧
    (∀ i : ℕ, (post_batch posts runPost)[i]? = (posts[i]?).map runPost) ∧
    (runPost p1 = .ok a → runPost p2 = .error e → runPost p3 = .ok c →
      post_batch [p1, p2, p3] runPost = [.ok a, .error e, .ok c]) := by
  refine ⟨by simp [post_batch, gather_return_exceptions], fun i => ?_,
    fun h1 h2 h3 => ?_⟩
  · simp [post_batch, gather_return_exceptions]
  · simp [post_batch, gather_return_exceptions, h1, h2, h3]

/-- Witness for the C7 theorem: a concrete batch of three requests whose
second one fails yields success, error, success. -/
theorem post_batch_partial_failure_witness :
    post_batch [⟨"text", 1, none, none⟩, ⟨"text", 2, none, none⟩,
        ⟨"text", 3, none, none⟩]
      (fun p => if p.content = 2 then .error (.fb (.exc "x"))
                else .ok (.posted ⟨p.content⟩)) =
      [.ok (.posted ⟨1⟩), .error (.fb (.exc "x")), .ok (.posted ⟨3⟩)] :=
  (post_batch_partial_failure [] _ ⟨"text", 1, none, none⟩
      ⟨"text", 2, none, none⟩ ⟨"text", 3, none, none⟩ (.posted ⟨1⟩)
      (.posted ⟨3⟩) (.fb (.exc "x"))).2.2 (by decide) (by decide) (by decide)

/-- Claim C8. ConnectionPool contract and bound: starting from the empty pool
of size N, after any prefix of any operation sequence the idle-handle count
never exceeds N; `get_session` never blocks — it returns the leftmost idle
handle, removed from the idle deque, when one exists, and a fresh session on
an empty deque; `release_session` retains the handle exactly when the idle
count is below `size` and otherwise closes it. -/
theorem connectionPool_bound_and_contract (N : ℕ) (ops : List PoolOp)
    (p : ConnectionPool) (s f : ℕ) (rest : List ℕ) :
    (∀ n : ℕ, (runPoolOps ⟨N, []⟩ (ops.take n)).pool.length ≤ N) ∧
    (p.pool = s :: rest → get_session p f = (s, { p with pool := rest })) ∧
    (p.pool = [] → get_session p f = (f, p)) ∧
    (p.pool.length < p.size →
      release_session p s = ({ p with pool := p.pool ++ [s] }, false)) ∧
    (p.size ≤ p.pool.length → release_session p s = (p, true)) := by
  refine ⟨fun n => ?_, fun h => ?_, fun h => ?_, fun h => ?_, fun h => ?_⟩
  · exact (runPoolOps_inv (ops.take n) ⟨N, []⟩ (by simp)).2
  · simp [get_session, h]
  · simp [get_session, h]
  · simp [release_session, h]
  · simp [release_session, Nat.not_lt.mpr h]

/-- Witness for the C8 theorem at concrete pools and operations. -/
theorem connectionPool_bound_and_contract_witness :
    (runPoolOps ⟨2, []⟩ ([.release 4, .release 5, .release 6,
        .acquire 9, .release 7].take 5)).pool.length ≤ 2 ∧
    get_session ⟨2, [5]⟩ 9 = (5, ⟨2, []⟩) ∧
    get_session ⟨2, []⟩ 9 = (9, ⟨2, []⟩) ∧
    release_session ⟨2, []⟩ 7 = (⟨2, [7]⟩, false) ∧
    release_session ⟨2, [7, 8]⟩ 7 = (⟨2, [7, 8]⟩, true) :=
  ⟨(connectionPool_bound_and_contract 2 [.release 4, .release 5, .release 6,
      .acquire 9, .release 7] ⟨2, []⟩ 0 0 []).1 5,
   (connectionPool_bound_and_contract 2 [] ⟨2, [5]⟩ 5 9 []).2.1 rfl,
   (connectionPool_bound_and_contract 2 [] ⟨2, []⟩ 9 9 []).2.2.1 rfl,
   (connectionPool_bound_and_contract 2 [] ⟨2, []⟩ 7 9 []).2.2.2.1 (by decide),
   (connectionPool_bound_and_contract 2 [] ⟨2, [7, 8]⟩ 7 9 []).2.2.2.2 (by decide)⟩

/-- Claim C9. Content validation never rejects: the guard calls the async
`_validate_content` without awaiting it, so the branch tests the truthiness
of a coroutine object, which is always true, and the
ValueError("Invalid content") is never raised — for every content type and
content, the gate passes and no `post` result is that error. On top of that,
the base implementation's body returns True unconditionally, so even awaiting
it could not reject. -/
theorem validation_never_rejects (ct : String) (c : ℕ) (now : ℤ)
    (heap : Array SEntry) (args : PostArgs) (pd : ℕ)
    (ir : Except FBError PostResp) :
    validation_gate ct c = .ok () ∧
    truthy (validate_content_call ct c) = true ∧
    validate_content_body ct c = true ∧
    (postFB now heap args pd ir).1 ≠ .error (.valueError "Invalid content") := by
  refine ⟨rfl, rfl, rfl, ?_⟩
  rcases args with ⟨act, ac, acap, asched⟩
  rcases asched with _ | ⟨u, aw⟩
  · rcases ir with e | r <;>
      simp [postFB, validation_gate, validate_content_call, truthy]
  · rcases aw
    · by_cases hu : u < now
      · simp [postFB, validation_gate, validate_content_call, truthy, hu]
      · by_cases hp : (heappush heap (u, pd)).2 = true
        · simp [postFB, validation_gate, validate_content_call, truthy, hu, hp]
        · simp [postFB, validation_gate, validate_content_call, truthy, hu, hp]
    · simp [postFB, validation_gate, validate_content_call, truthy, lookupName,
        facebookModuleNames, Except.map]

/-- Claim C10. A post request carrying a timezone-aware `scheduled_time`
makes `post` raise NameError for the unbound name `timezone` (facebook.py
imports only `datetime` and `timedelta` from `datetime`), instead of a
schedule acknowledgement or an invalid-schedule error, and the scheduled-post
heap is left unchanged — the failure happens before the heappush. -/
theorem post_aware_time_raises_nameError (now : ℤ) (heap : Array SEntry)
    (ct : String) (c : ℕ) (cap : Option String) (u : ℤ) (pd : ℕ)
    (ir : Except FBError PostResp) :
    postFB now heap ⟨ct, c, cap, some ⟨u, true⟩⟩ pd ir =
      (.error (.nameError "timezone"), heap) ∧
    lookupName "timezone" = .error (.nameError "timezone") := by
  constructor
  · simp [postFB, validation_gate, validate_content_call, truthy, lookupName,
      facebookModuleNames, Except.map]
  · decide

/-- Witness for the C9 theorem at a concrete post request. -/
theorem validation_never_rejects_witness :
    validation_gate "text" 0 = .ok () ∧
    (postFB 100 #[] ⟨"text", 0, none, none⟩ 0 (.ok ⟨7⟩)).1 ≠
      .error (.valueError "Invalid content") :=
  ⟨(validation_never_rejects "text" 0 100 #[] ⟨"text", 0, none, none⟩ 0
      (.ok ⟨7⟩)).1,
   (validation_never_rejects "text" 0 100 #[] ⟨"text", 0, none, none⟩ 0
      (.ok ⟨7⟩)).2.2.2⟩

/-- Witness for the C10 theorem at a concrete aware scheduled time. -/
theorem post_aware_time_raises_nameError_witness :
    postFB 100 #[] ⟨"text", 0, none, some ⟨50, true⟩⟩ 0 (.ok ⟨7⟩) =
      (.error (.nameError "timezone"), #[]) :=
  (post_aware_time_raises_nameError 100 #[] "text" 0 none 50 0 (.ok ⟨7⟩)).1
